import Mathlib

/-!
Shallow embedding of the catalog service of GabrielDeon/Bookmark-Server
(`BookService` in `src/unnamed/part_000`), which performs all read and write
operations on Book and BookCategory rows through a Prisma client.

The Prisma store is modelled as an in-memory list of rows per entity; each
Prisma round trip that can fail at the database level takes an explicit
failure flag, so that the try/catch wrappers of the service can be embedded
faithfully.  Service operations return `Except ServiceError _`, with
`ServiceError.notFound` standing for `NotFoundException` and
`ServiceError.internal` for `InternalServerErrorException`.
-/

/-- Modelled from the spec: the Prisma schema (`prisma/schema.prisma`) is not
under `src/`, so the Book columns are taken from the data model of the spec:
`id`, `title`, `author`, `image` (optional), `mainCategoryId` (required FK),
`subCategoryId` (optional FK), `finalPrice`, `deletedAt` (nullable timestamp,
`none` = active).  The service refers to these columns under the store names
`title`/`product_name` (the title field), `author`, `image`, `id_category`
(the main-category FK), `final_price` and `deleted_at`.  Timestamps are
modelled as `Nat`. -/
structure Book where
  id : String
  title : String
  author : String
  image : Option String
  mainCategoryId : String
  subCategoryId : Option String
  finalPrice : Int
  deletedAt : Option Nat
deriving DecidableEq

/-- A BookCategory row; the service only ever looks categories up by `id`. -/
structure BookCategory where
  id : String
deriving DecidableEq

/-- The relational store backing the Prisma client: the Book and BookCategory
tables. -/
structure Store where
  books : List Book
  categories : List BookCategory
deriving DecidableEq

/-- Well-formedness of the store: row ids are unique, as the store enforces
for the `id` column (`findUnique`/`update`/`delete` address a single row). -/
def booksWf (s : Store) : Prop :=
  (s.books.map (fun b => b.id)).Nodup

/-- The two error kinds the service produces: `NotFoundException` and
`InternalServerErrorException`, each carrying its message. -/
inductive ServiceError where
  | notFound (msg : String)
  | internal (msg : String)
deriving DecidableEq

/-- `prisma.bookCategory.findUnique({ where: { id } })`. -/
def catById (s : Store) (cid : String) : Option BookCategory :=
  s.categories.find? (fun c => c.id == cid)

/-- Result of `findBook`: the row with its `mainCategory` and `subCategory`
relations eagerly included (`include: { mainCategory: true, subCategory: true }`). -/
structure BookWithCats where
  book : Book
  mainCategory : Option BookCategory
  subCategory : Option BookCategory
deriving DecidableEq

/-- `findBook(id)` (source lines 16-36): a `findUnique` on
`{ id, deleted_at: null }` with both category relations included, wrapped in
try/catch turning a database failure (`dbFails`) into
`InternalServerErrorException`; a `null` row becomes
`NotFoundException('Book not found!')`. -/
def findBook (s : Store) (dbFails : Bool) (id : String) :
    Except ServiceError BookWithCats :=
  if dbFails then
    .error (.internal "An error occurred while fetching book.")
  else
    match s.books.find? (fun b => b.id == id && b.deletedAt == none) with
    | none => .error (.notFound "Book not found!")
    | some b =>
        .ok ⟨b, catById s b.mainCategoryId,
             b.subCategoryId.bind (fun cid => catById s cid)⟩

/-- The `WhereClause` interface of `findAllBooks` (source lines 47-57):
`deleted_at: null` always, plus an optional `id_category` restriction. -/
structure WhereClause where
  mainCategoryId : Option String
deriving DecidableEq

/-- `const whereClause = { deleted_at: null }; if (categoryId != 'none')
whereClause.id_category = categoryId`. -/
def mkWhereClause (categoryId : String) : WhereClause :=
  if categoryId != "none" then ⟨some categoryId⟩ else ⟨none⟩

/-- Whether a row satisfies the where clause: active (`deleted_at` null) and,
when present, matching the `id_category` restriction. -/
def whereMatches (w : WhereClause) (b : Book) : Bool :=
  b.deletedAt == none &&
    (match w.mainCategoryId with
     | none => true
     | some cid => b.mainCategoryId == cid)

/-- The column named by the `orderBy` specification of `findAllBooks`:
`product_name` (the title column, see `Book`), `final_price`, `id_category`. -/
inductive SortField where
  | byTitle
  | byFinalPrice
  | byMainCategoryId
deriving DecidableEq

/-- The `switch (filter)` of `findAllBooks` (source lines 59-75): `name` maps
to `{ product_name: sortOrder }`, `price` to `{ final_price: sortOrder }`,
`category` to `{ id_category: sortOrder }`, and both `none` and the default
case leave `orderBy` undefined.  The direction string is passed through
verbatim. -/
def mkOrderBy (filter sortOrder : String) : Option (SortField × String) :=
  match filter with
  | "none" => none
  | "name" => some (.byTitle, sortOrder)
  | "price" => some (.byFinalPrice, sortOrder)
  | "category" => some (.byMainCategoryId, sortOrder)
  | _ => none

/-- Comparison on the sorted column, ascending. -/
def fieldLe : SortField → Book → Book → Bool
  | .byTitle, a, b => decide (a.title ≤ b.title)
  | .byFinalPrice, a, b => decide (a.finalPrice ≤ b.finalPrice)
  | .byMainCategoryId, a, b => decide (a.mainCategoryId ≤ b.mainCategoryId)

/-- Direction handling of the store sort: `desc` reverses the comparison,
anything else sorts ascending. -/
def orderLe (f : SortField) (dir : String) (a b : Book) : Bool :=
  if dir == "desc" then fieldLe f b a else fieldLe f a b

/-- Insertion step of the model of the store sort. -/
def insertSorted (le : Book → Book → Bool) (a : Book) : List Book → List Book
  | [] => [a]
  | b :: l => if le a b then a :: b :: l else b :: insertSorted le a l

/-- Model of the store sort: insertion sort by the given comparison. -/
def sortByLe (le : Book → Book → Bool) : List Book → List Book
  | [] => []
  | a :: l => insertSorted le a (sortByLe le l)

/-- Applying the `orderBy` specification: an undefined `orderBy` leaves the
store order unchanged. -/
def applyOrderBy : Option (SortField × String) → List Book → List Book
  | none, l => l
  | some (f, dir), l => sortByLe (orderLe f dir) l

/-- The rows matching the where clause of `findAllBooks` for a given
`categoryId`, in store order. -/
def activeMatching (s : Store) (categoryId : String) : List Book :=
  s.books.filter (fun b => whereMatches (mkWhereClause categoryId) b)

/-- The page delivered by `prisma.book.findMany({ where, skip, take, orderBy })`
inside `findAllBooks`: the matching rows, sorted, with
`skip: (page - 1) * perPage` and `take: perPage` applied. -/
def pageOf (s : Store) (page perPage : Nat) (filter sortOrder categoryId : String) :
    List Book :=
  ((applyOrderBy (mkOrderBy filter sortOrder) (activeMatching s categoryId)).drop
      ((page - 1) * perPage)).take perPage

/-- A listed row with its `mainCategory` relation included
(`include: { mainCategory: true }`). -/
structure BookWithMain where
  book : Book
  mainCategory : Option BookCategory
deriving DecidableEq

/-- Attaching the included `mainCategory` record to a row. -/
def withMain (s : Store) (b : Book) : BookWithMain :=
  ⟨b, catById s b.mainCategoryId⟩

/-- `countBooks()` (source lines 213-224): `prisma.book.count({ where:
{ deleted_at: null } })`, with a database failure wrapped into
`InternalServerErrorException`. -/
def countBooks (s : Store) (dbFails : Bool) : Except ServiceError Nat :=
  if dbFails then
    .error (.internal "An error occurred while counting books.")
  else
    .ok (s.books.countP (fun b => b.deletedAt == none))

/-- The object `findAllBooks` resolves with: `{ totalBooks, totalPages,
...books }`.  When the counting step failed, `totalBooks` and `totalPages`
are the JavaScript value `undefined`, modelled as `none`. -/
structure ListResult where
  totalBooks : Option Nat
  totalPages : Option Nat
  items : List BookWithMain
deriving DecidableEq

/-- Database-failure injection for the two round trips of `findAllBooks`:
the `findMany` listing step and the `count` counting step. -/
structure ListFail where
  findManyFails : Bool
  countFails : Bool
deriving DecidableEq

/-- No database failure on either step. -/
def noListFail : ListFail := ⟨false, false⟩

/-- `findAllBooks(page, perPage, filter, sortOrder, categoryId)` (source lines
37-110).  A failing `findMany` is wrapped into
`InternalServerErrorException`; an empty page raises
`NotFoundException('No product was found!')`; then `countBooks` runs inside a
try/catch whose `finally` block unconditionally returns
`{ totalBooks, totalPages, ...books }` — so when counting fails, the
`InternalServerErrorException` thrown by the catch block is discarded and the
call resolves with `totalBooks`/`totalPages` undefined.  `Math.ceil(totalBooks
/ perPage)` is modelled as `(totalBooks + perPage - 1) / perPage`, which
agrees with it for every `perPage ≥ 1`. -/
def findAllBooks (s : Store) (fail : ListFail) (page perPage : Nat)
    (filter sortOrder categoryId : String) : Except ServiceError ListResult :=
  if fail.findManyFails then
    .error (.internal "An error occurred while fetching books.")
  else
    let books := (pageOf s page perPage filter sortOrder categoryId).map (withMain s)
    if books.length == 0 then
      .error (.notFound "No product was found!")
    else
      match countBooks s fail.countFails with
      | .error _ => .ok ⟨none, none, books⟩
      | .ok totalBooks =>
          .ok ⟨some totalBooks, some ((totalBooks + perPage - 1) / perPage), books⟩

/-- `CreateBookDto` as consumed by `createBook`: `title`, `author`,
`categoryId` (main category), optional `subCategoryId`. -/
structure CreateBookDto where
  title : String
  author : String
  categoryId : String
  subCategoryId : Option String
deriving DecidableEq

/-- An uploaded image file (`Express.Multer.File`): its original name and its
byte buffer. -/
structure FileUpload where
  originalname : String
  buffer : List Nat
deriving DecidableEq

/-- The file-system blob store under the fixed upload directory, keyed by the
original file name. -/
abbrev BlobStore := List (String × List Nat)

/-- `fs.writeFileSync(path.join(uploadPath, originalname), buffer)`:
create-or-overwrite, last write wins. -/
def writeBlob (blob : BlobStore) (name : String) (content : List Nat) : BlobStore :=
  (name, content) :: blob.filter (fun e => !(e.1 == name))

/-- Reading a stored file back by name. -/
def readBlob (blob : BlobStore) (name : String) : Option (List Nat) :=
  (blob.find? (fun e => e.1 == name)).map (fun e => e.2)

/-- Database-failure injection for `createBook`: the category `findUnique`
lookups and the `book.create` write. -/
structure CreateFail where
  lookupFails : Bool
  createFails : Bool
deriving DecidableEq

/-- No database failure during `createBook`. -/
def noCreateFail : CreateFail := ⟨false, false⟩

/-- The row written by `prisma.book.create` inside `createBook`: the DTO
fields, the stored image name when one was uploaded, and the relations
connected to the verified category ids; `final_price` takes the schema
default and `deleted_at` starts null.  `newId` is the store-generated id. -/
def mkNewBook (newId : String) (bookData : CreateBookDto) (imageUrl : Option String) :
    Book :=
  { id := newId, title := bookData.title, author := bookData.author,
    image := imageUrl, mainCategoryId := bookData.categoryId,
    subCategoryId := bookData.subCategoryId, finalPrice := 0, deletedAt := none }

/-- `createBook(bookData, bookImage)` (source lines 112-173).  If an image is
supplied it is written to the blob store FIRST, before the try block.  Then
the main category is looked up and, when missing,
`NotFoundException('Main category with ID ... not found')` is thrown; a
supplied `subCategoryId` is looked up the same way; then the row is inserted.
The outer catch re-throws `NotFoundException` unchanged and wraps every other
failure (lookup failure, write failure) into
`InternalServerErrorException('Failed to create a new book!')`. -/
def createBook (s : Store) (blob : BlobStore) (fail : CreateFail) (newId : String)
    (bookData : CreateBookDto) (bookImage : Option FileUpload) :
    Except ServiceError Book × Store × BlobStore :=
  let imageUrl : Option String := bookImage.map (fun f => f.originalname)
  let blob1 : BlobStore :=
    match bookImage with
    | none => blob
    | some f => writeBlob blob f.originalname f.buffer
  if fail.lookupFails then
    (.error (.internal "Failed to create a new book!"), s, blob1)
  else
    match catById s bookData.categoryId with
    | none =>
        (.error (.notFound ("Main category with ID " ++ bookData.categoryId ++ " not found")),
         s, blob1)
    | some _ =>
        match bookData.subCategoryId with
        | some scid =>
            match catById s scid with
            | none =>
                (.error (.notFound ("Sub category with ID " ++ scid ++ " not found")),
                 s, blob1)
            | some _ =>
                if fail.createFails then
                  (.error (.internal "Failed to create a new book!"), s, blob1)
                else
                  (.ok (mkNewBook newId bookData imageUrl),
                   { s with books := s.books ++ [mkNewBook newId bookData imageUrl] },
                   blob1)
        | none =>
            if fail.createFails then
              (.error (.internal "Failed to create a new book!"), s, blob1)
            else
              (.ok (mkNewBook newId bookData imageUrl),
               { s with books := s.books ++ [mkNewBook newId bookData imageUrl] },
               blob1)

/-- `softDeleteBook(id)` (source lines 192-211): `prisma.book.update({ where:
{ id }, data: { deleted_at: new Date() } })`; a store failure — including the
store-level not-found raised when no row has that id — is wrapped into
`InternalServerErrorException('Failed to soft-delete a book!')`.  `now` is
the timestamp `new Date()`. -/
def softDeleteBook (s : Store) (now : Nat) (id : String) :
    Except ServiceError Book × Store :=
  match s.books.find? (fun b => b.id == id) with
  | none => (.error (.internal "Failed to soft-delete a book!"), s)
  | some b =>
      (.ok { b with deletedAt := some now },
       { s with books :=
          s.books.map (fun x => if x.id == id then { x with deletedAt := some now } else x) })

/-- `deleteBook(id)` (hard delete): `prisma.book.delete({ where: { id } })`;
any store failure is wrapped into
`InternalServerErrorException('Failed to hard-delete a book!')`. -/
def deleteBook (s : Store) (id : String) : Except ServiceError Book × Store :=
  match s.books.find? (fun b => b.id == id) with
  | none => (.error (.internal "Failed to hard-delete a book!"), s)
  | some b =>
      (.ok b, { s with books := s.books.filter (fun x => !(x.id == id)) })

/-- The count of active rows, as delivered by a successful `countBooks`. -/
def countActive (s : Store) : Nat :=
  s.books.countP (fun b => b.deletedAt == none)

/-- Sample category `c1`, used to evaluate the operations concretely. -/
def cat1 : BookCategory := ⟨"c1"⟩

/-- Sample category `c2`. -/
def cat2 : BookCategory := ⟨"c2"⟩

/-- Sample active book `a` in category `c1`. -/
def bookA : Book := ⟨"a", "Alpha", "AuthA", none, "c1", none, 10, none⟩

/-- Sample active book `b` in category `c2`. -/
def bookB : Book := ⟨"b", "Beta", "AuthB", none, "c2", none, 20, none⟩

/-- Sample soft-deleted book `d` in category `c1`. -/
def bookD : Book := ⟨"d", "Delta", "AuthD", none, "c1", none, 30, some 7⟩

/-- Sample store: two active books, one soft-deleted book, two categories. -/
def sampleStore : Store := ⟨[bookA, bookB, bookD], [cat1, cat2]⟩

/-- A store with no rows at all. -/
def emptyStore : Store := ⟨[], []⟩

theorem mem_insertSorted {le : Book → Book → Bool} {a x : Book} :
    ∀ {l : List Book}, x ∈ insertSorted le a l → x = a ∨ x ∈ l := by
  intro l
  induction l with
  | nil =>
      intro h
      simp [insertSorted] at h
      exact Or.inl h
  | cons b t ih =>
      intro h
      by_cases hab : le a b = true
      · simp only [insertSorted, hab, if_true] at h
        rcases List.mem_cons.mp h with h1 | h1
        · exact Or.inl h1
        · exact Or.inr h1
      · simp only [insertSorted, hab, if_false] at h
        rcases List.mem_cons.mp h with h1 | h1
        · exact Or.inr (by simp [h1])
        · rcases ih h1 with h2 | h2
          · exact Or.inl h2
          · exact Or.inr (List.mem_cons_of_mem _ h2)

theorem mem_sortByLe {le : Book → Book → Bool} {x : Book} :
    ∀ {l : List Book}, x ∈ sortByLe le l → x ∈ l := by
  intro l
  induction l with
  | nil =>
      intro h
      simp [sortByLe] at h
  | cons a t ih =>
      intro h
      rcases mem_insertSorted (by simpa [sortByLe] using h) with h1 | h1
      · exact h1 ▸ List.mem_cons_self a t
      · exact List.mem_cons_of_mem _ (ih h1)

theorem mem_applyOrderBy {ob : Option (SortField × String)} {x : Book}
    {l : List Book} (h : x ∈ applyOrderBy ob l) : x ∈ l := by
  match ob with
  | none => exact h
  | some (f, dir) => exact mem_sortByLe h

theorem find?_eq_some_unique {α : Type} {p : α → Bool} :
    ∀ {l : List α} {b : α}, b ∈ l → p b = true →
      (∀ x ∈ l, p x = true → x = b) → l.find? p = some b := by
  intro l
  induction l with
  | nil =>
      intro b hb _ _
      cases hb
  | cons a t ih =>
      intro b hb hpb huniq
      by_cases hpa : p a = true
      · rw [List.find?_cons_of_pos _ hpa]
        exact congrArg some (huniq a (List.mem_cons_self a t) hpa)
      · rw [List.find?_cons_of_neg _ hpa]
        have hbt : b ∈ t := by
          rcases List.mem_cons.mp hb with h1 | h1
          · exact absurd (h1 ▸ hpb) hpa
          · exact h1
        exact ih hbt hpb (fun x hx hpx => huniq x (List.mem_cons_of_mem a hx) hpx)

theorem mem_pageOf {s : Store} {page perPage : Nat} {f so c : String} {b : Book}
    (h : b ∈ pageOf s page perPage f so c) :
    b ∈ s.books ∧ whereMatches (mkWhereClause c) b = true := by
  have h1 : b ∈ applyOrderBy (mkOrderBy f so) (activeMatching s c) :=
    List.drop_subset _ _ (List.take_subset _ _ h)
  have h2 : b ∈ activeMatching s c := mem_applyOrderBy h1
  have h3 := List.mem_filter.mp h2
  exact ⟨h3.1, h3.2⟩

theorem findAllBooks_ok_inv {s : Store} {fail : ListFail} {page perPage : Nat}
    {f so c : String} {r : ListResult}
    (h : findAllBooks s fail page perPage f so c = .ok r) :
    r.items = (pageOf s page perPage f so c).map (withMain s) ∧
    (fail.countFails = true → r.totalBooks = none ∧ r.totalPages = none) ∧
    (fail.countFails = false →
      r.totalBooks = some (countActive s) ∧
      r.totalPages = some ((countActive s + perPage - 1) / perPage)) := by
  rcases fail with ⟨fm, cf⟩
  cases fm with
  | true => simp [findAllBooks] at h
  | false =>
      cases cf with
      | true =>
          simp [findAllBooks, countBooks] at h
          split at h
          · cases h
          · cases h
            refine ⟨rfl, ?_, ?_⟩
            · intro hc
              exact ⟨rfl, rfl⟩
            · intro hc
              cases hc
      | false =>
          simp [findAllBooks, countBooks] at h
          split at h
          · cases h
          · cases h
            refine ⟨rfl, ?_, ?_⟩
            · intro hc
              cases hc
            · intro hc
              exact ⟨rfl, rfl⟩

/-- C1: evidence against the claim that a failure of the counting step (with
the listing step succeeded) makes `list` fail with an Internal error.  On a
store with two active books, with only the count round trip failing,
`findAllBooks` resolves with a result object whose `totalBooks` and
`totalPages` are undefined: the unconditional `return` in the `finally`
block discards the `InternalServerErrorException` thrown by the catch
block. -/
theorem count_failure_swallowed_by_finally :
    findAllBooks sampleStore ⟨false, true⟩ 1 10 "none" "asc" "none" =
      .ok ⟨none, none, [⟨bookA, some cat1⟩, ⟨bookB, some cat2⟩]⟩ := by
  rfl

/-- C2: when the page delivered by the listing round trip (after skip/take)
contains zero matching rows, `findAllBooks` fails with
`NotFoundException('No product was found!')` rather than returning an empty
list, whatever the state of the counting step. -/
theorem empty_page_fails_notFound (s : Store) (cf : Bool) (page perPage : Nat)
    (f so c : String) (h : pageOf s page perPage f so c = []) :
    findAllBooks s ⟨false, cf⟩ page perPage f so c =
      .error (.notFound "No product was found!") := by
  simp [findAllBooks, h]

/-- C2 witness: `page = 1`, `perPage = 10` on a catalog with no active books
fails with `NotFound`. -/
theorem empty_page_fails_notFound_witness :
    pageOf emptyStore 1 10 "none" "asc" "none" = [] ∧
      findAllBooks emptyStore ⟨false, false⟩ 1 10 "none" "asc" "none" =
        .error (.notFound "No product was found!") :=
  ⟨rfl, empty_page_fails_notFound emptyStore false 1 10 "none" "asc" "none" rfl⟩

/-- C3: every read operation restricts itself to rows whose `deleted_at` is
null: a successful `findBook` returns an active row, every row listed by a
successful `findAllBooks` is active regardless of the filter/sort/category
parameters, and a successful `countBooks` returns exactly the number of rows
with `deleted_at` null. -/
theorem reads_restricted_to_active_rows (s : Store) :
    (∀ id r, findBook s false id = .ok r → r.book.deletedAt = none) ∧
    (∀ fail page perPage f so c r, findAllBooks s fail page perPage f so c = .ok r →
        ∀ x ∈ r.items, x.book.deletedAt = none) ∧
    countBooks s false =
      .ok ((s.books.filter (fun b => decide (b.deletedAt = none))).length) := by
  refine ⟨?_, ?_, ?_⟩
  · intro id r h
    simp only [findBook] at h
    rw [if_neg (by simp)] at h
    rcases hfind : s.books.find? (fun b => b.id == id && b.deletedAt == none) with _ | b
    · rw [hfind] at h
      cases h
    · rw [hfind] at h
      cases h
      have hp := List.find?_some hfind
      simp at hp
      exact hp.2
  · intro fail page perPage f so c r h x hx
    rw [(findAllBooks_ok_inv h).1] at hx
    rcases List.mem_map.mp hx with ⟨y, hy, hxy⟩
    have hw := (mem_pageOf hy).2
    simp only [whereMatches, Bool.and_eq_true] at hw
    have hdel : y.deletedAt = none := by simpa using hw.1
    cases hxy
    exact hdel
  · rw [countBooks, if_neg (by simp), List.countP_eq_length_filter]
    have hfe : ∀ x ∈ s.books,
        (x.deletedAt == none) = decide (x.deletedAt = none) := by
      intro x hx
      cases x.deletedAt <;> rfl
    rw [List.filter_congr hfe]

/-- C3 witness: on the sample store, `findBook` returns the active row `a`
with a null `deleted_at`, and `countBooks` counts its two active rows. -/
theorem reads_restricted_to_active_rows_witness :
    findBook sampleStore false "a" = .ok ⟨bookA, some cat1, none⟩ ∧
      bookA.deletedAt = none ∧
      countBooks sampleStore false = .ok 2 :=
  ⟨rfl,
   (reads_restricted_to_active_rows sampleStore).1 "a" ⟨bookA, some cat1, none⟩ rfl,
   (reads_restricted_to_active_rows sampleStore).2.2⟩

/-- C4: for every id, if an active row with that id exists (row ids being
unique), `findBook` returns that row with its main and sub category records
included; if no active row with that id exists — nonexistent or soft-deleted
— it fails with `NotFound`; and it fails with `Internal` exactly when the
data access itself fails: without a database failure it never produces an
Internal error, with one it does. -/
theorem getById_spec (s : Store) (id : String) :
    (∀ b ∈ s.books, booksWf s → b.id = id → b.deletedAt = none →
        findBook s false id =
          .ok ⟨b, catById s b.mainCategoryId,
               b.subCategoryId.bind (fun cid => catById s cid)⟩) ∧
    ((∀ b ∈ s.books, b.id = id → b.deletedAt ≠ none) →
        findBook s false id = .error (.notFound "Book not found!")) ∧
    (∀ m, findBook s false id ≠ .error (.internal m)) ∧
    findBook s true id = .error (.internal "An error occurred while fetching book.") := by
  refine ⟨?_, ?_, ?_, rfl⟩
  · intro b hb hwf hid hdel
    have hfind : s.books.find? (fun x => x.id == id && x.deletedAt == none) = some b := by
      apply find?_eq_some_unique hb
      · simp [hid, hdel]
      · intro x hx hpx
        simp at hpx
        exact List.inj_on_of_nodup_map hwf hx hb (by rw [hpx.1, hid])
    simp only [findBook]
    rw [if_neg (by simp), hfind]
  · intro hnone
    have hfind : s.books.find? (fun x => x.id == id && x.deletedAt == none) = none := by
      rw [List.find?_eq_none]
      intro x hx hpx
      simp at hpx
      exact hnone x hx hpx.1 hpx.2
    simp only [findBook]
    rw [if_neg (by simp), hfind]
  · intro m h
    simp only [findBook] at h
    rw [if_neg (by simp)] at h
    rcases hfind : s.books.find? (fun x => x.id == id && x.deletedAt == none) with _ | b
    · rw [hfind] at h
      cases h
    · rw [hfind] at h
      cases h

/-- C4 witness: on the sample store, the active row `a` is returned with its
category records included, and the soft-deleted id `d` reports `NotFound`. -/
theorem getById_spec_witness :
    bookA ∈ sampleStore.books ∧ booksWf sampleStore ∧ bookA.id = "a" ∧
      bookA.deletedAt = none ∧
      findBook sampleStore false "a" =
        .ok ⟨bookA, catById sampleStore bookA.mainCategoryId,
             bookA.subCategoryId.bind (fun cid => catById sampleStore cid)⟩ ∧
      findBook sampleStore false "d" = .error (.notFound "Book not found!") :=
  ⟨by decide, by unfold booksWf; decide, rfl, rfl,
   (getById_spec sampleStore "a").1 bookA (by decide) (by unfold booksWf; decide) rfl rfl,
   (getById_spec sampleStore "d").2.1 (by decide)⟩

/-- C5: for `page ≥ 1` and `perPage ≥ 1`, a successful `findAllBooks`
delivers the sorted matching rows with exactly `(page - 1) * perPage` of
them skipped and at most `perPage` of them taken, and when the counting step
succeeded it reports `totalPages = ⌈totalCount / perPage⌉`, `totalCount`
being the count of all active rows. -/
theorem list_pagination_spec (s : Store) (fail : ListFail) (page perPage : Nat)
    (f so c : String) (r : ListResult)
    (_hp : 1 ≤ page) (_hpp : 1 ≤ perPage)
    (h : findAllBooks s fail page perPage f so c = .ok r) :
    r.items =
      (((applyOrderBy (mkOrderBy f so) (activeMatching s c)).drop
          ((page - 1) * perPage)).take perPage).map (withMain s) ∧
    r.items.length ≤ perPage ∧
    (fail.countFails = false →
      r.totalBooks = some (countActive s) ∧
      r.totalPages = some (countActive s ⌈/⌉ perPage)) := by
  obtain ⟨hitems, hcf1, hcf0⟩ := findAllBooks_ok_inv h
  refine ⟨hitems, ?_, ?_⟩
  · rw [hitems, List.length_map]
    exact List.length_take_le _ _
  · intro hcf
    refine ⟨(hcf0 hcf).1, ?_⟩
    rw [(hcf0 hcf).2, Nat.ceilDiv_eq_add_pred_div]

/-- C5 witness: the sample store listed with `page = 1`, `perPage = 10`
returns both active rows and reports one total page, `⌈2 / 10⌉`. -/
theorem list_pagination_spec_witness :
    1 ≤ 1 ∧ 1 ≤ 10 ∧
      findAllBooks sampleStore noListFail 1 10 "none" "asc" "none" =
        .ok ⟨some 2, some 1, [⟨bookA, some cat1⟩, ⟨bookB, some cat2⟩]⟩ ∧
      (⟨some 2, some 1, [⟨bookA, some cat1⟩, ⟨bookB, some cat2⟩]⟩ : ListResult).totalPages =
        some (countActive sampleStore ⌈/⌉ 10) :=
  ⟨Nat.le_refl 1, by decide, rfl,
   ((list_pagination_spec sampleStore noListFail 1 10 "none" "asc" "none"
      ⟨some 2, some 1, [⟨bookA, some cat1⟩, ⟨bookB, some cat2⟩]⟩
      (Nat.le_refl 1) (by decide) rfl).2.2 rfl).2⟩

/-- C6: with `categoryId` set to a concrete value other than the string
`none`, every row returned by `findAllBooks` has that value as its main
category; with `categoryId = 'none'` no category restriction is applied: the
where clause keeps exactly the active rows of every category. -/
theorem category_filter_spec (s : Store) (fail : ListFail) (page perPage : Nat)
    (f so c : String) :
    (c ≠ "none" → ∀ r, findAllBooks s fail page perPage f so c = .ok r →
        ∀ x ∈ r.items, x.book.mainCategoryId = c) ∧
    (c = "none" →
        activeMatching s c = s.books.filter (fun b => b.deletedAt == none)) := by
  constructor
  · intro hc r h x hx
    rw [(findAllBooks_ok_inv h).1] at hx
    rcases List.mem_map.mp hx with ⟨y, hy, hxy⟩
    have hw := (mem_pageOf hy).2
    have hclause : mkWhereClause c = ⟨some c⟩ := by
      simp [mkWhereClause, hc]
    rw [hclause] at hw
    simp only [whereMatches, Bool.and_eq_true] at hw
    have hcat : y.mainCategoryId = c := by simpa using hw.2
    cases hxy
    exact hcat
  · intro hc
    subst hc
    unfold activeMatching
    apply List.filter_congr
    intro x hx
    simp [whereMatches, mkWhereClause]

/-- C6 witness: listing the sample store with `categoryId = 'c1'` returns
only the row of category `c1`. -/
theorem category_filter_spec_witness :
    ("c1" : String) ≠ "none" ∧
      findAllBooks sampleStore noListFail 1 10 "none" "asc" "c1" =
        .ok ⟨some 2, some 1, [⟨bookA, some cat1⟩]⟩ ∧
      bookA.mainCategoryId = "c1" :=
  ⟨by decide, rfl,
   (category_filter_spec sampleStore noListFail 1 10 "none" "asc" "c1").1 (by decide)
     ⟨some 2, some 1, [⟨bookA, some cat1⟩]⟩ rfl ⟨bookA, some cat1⟩ (by decide)⟩

/-- C7: the filter key maps to the sort specification as follows: `name`
sorts by the title column, `price` by the final-price column, `category` by
the main-category id column, and `none` or any unrecognized value applies no
explicit sort, leaving the store order unchanged.  The direction string is
handed to the comparison verbatim. -/
theorem filter_key_sort_mapping (so fk : String) :
    mkOrderBy "name" so = some (SortField.byTitle, so) ∧
    mkOrderBy "price" so = some (SortField.byFinalPrice, so) ∧
    mkOrderBy "category" so = some (SortField.byMainCategoryId, so) ∧
    mkOrderBy "none" so = none ∧
    (fk ∉ (["none", "name", "price", "category"] : List String) →
        mkOrderBy fk so = none) ∧
    (∀ l, applyOrderBy none l = l) ∧
    (∀ a b, fieldLe SortField.byTitle a b = decide (a.title ≤ b.title)) ∧
    (∀ a b, fieldLe SortField.byFinalPrice a b = decide (a.finalPrice ≤ b.finalPrice)) ∧
    (∀ a b, fieldLe SortField.byMainCategoryId a b =
        decide (a.mainCategoryId ≤ b.mainCategoryId)) := by
  refine ⟨rfl, rfl, rfl, rfl, ?_, fun l => rfl, fun a b => rfl, fun a b => rfl,
          fun a b => rfl⟩
  intro hfk
  simp at hfk
  obtain ⟨h1, h2, h3, h4⟩ := hfk
  unfold mkOrderBy
  split <;> simp_all

/-- C7 witness: an unrecognized filter key applies no explicit sort. -/
theorem filter_key_sort_mapping_witness :
    ("unrecognized" : String) ∉ (["none", "name", "price", "category"] : List String) ∧
      mkOrderBy "unrecognized" "asc" = none :=
  ⟨by decide, (filter_key_sort_mapping "asc" "unrecognized").2.2.2.2.1 (by decide)⟩

/-- C8: `createBook` surfaces missing-category failures as `NotFound` with
the message built at the throw site, unchanged by the outer catch: a missing
main category, and independently a missing supplied sub category, each yield
their `NotFound` error; every other failure — a failing category-lookup
round trip or a failing store write — is wrapped into the fixed
`InternalServerErrorException('Failed to create a new book!')`. -/
theorem create_error_spec (s : Store) (blob : BlobStore) (newId : String)
    (d : CreateBookDto) (img : Option FileUpload) :
    (catById s d.categoryId = none →
        (createBook s blob noCreateFail newId d img).1 =
          .error (.notFound ("Main category with ID " ++ d.categoryId ++ " not found"))) ∧
    (∀ scid mc, catById s d.categoryId = some mc → d.subCategoryId = some scid →
        catById s scid = none →
        (createBook s blob noCreateFail newId d img).1 =
          .error (.notFound ("Sub category with ID " ++ scid ++ " not found"))) ∧
    (∀ mc, catById s d.categoryId = some mc →
        (∀ scid ∈ d.subCategoryId, catById s scid ≠ none) →
        (createBook s blob ⟨false, true⟩ newId d img).1 =
          .error (.internal "Failed to create a new book!")) ∧
    (createBook s blob ⟨true, false⟩ newId d img).1 =
      .error (.internal "Failed to create a new book!") := by
  refine ⟨?_, ?_, ?_, rfl⟩
  · intro hmain
    simp [createBook, noCreateFail, hmain]
  · intro scid mc hmc hsub hscid
    simp [createBook, noCreateFail, hmc, hsub, hscid]
  · intro mc hmc hsubok
    rcases hsub : d.subCategoryId with _ | scid
    · simp [createBook, hmc, hsub]
    · have hscid := hsubok scid (by simp [hsub])
      rcases hfound : catById s scid with _ | sc
      · exact absurd hfound hscid
      · simp [createBook, hmc, hsub, hfound]

/-- C8 witness: creating a book whose main category id references no existing
category fails with the `NotFound` message of the main-category check. -/
theorem create_error_spec_witness :
    catById sampleStore "c9" = none ∧
      (createBook sampleStore [] noCreateFail "n1" ⟨"T", "A", "c9", none⟩ none).1 =
        .error (.notFound ("Main category with ID " ++ "c9" ++ " not found")) :=
  ⟨rfl, (create_error_spec sampleStore [] "n1" ⟨"T", "A", "c9", none⟩ none).1 rfl⟩

/-- C9: soft delete versus hard delete: after `softDeleteBook(id)` on an
existing book, `findBook(id)` fails with `NotFound`, no successful
`findAllBooks` call lists a row with that id, yet a row with that id still
exists in the store backing data; after `deleteBook(id)` on the original
store, no row with that id remains at all. -/
theorem soft_vs_hard_delete_spec (s : Store) (now : Nat) (id : String) (b : Book)
    (hb : b ∈ s.books) (hid : b.id = id) :
    findBook (softDeleteBook s now id).2 false id =
        .error (.notFound "Book not found!") ∧
    (∀ fail page perPage f so c r x,
        findAllBooks (softDeleteBook s now id).2 fail page perPage f so c = .ok r →
        x ∈ r.items → x.book.id ≠ id) ∧
    (∃ b2 ∈ (softDeleteBook s now id).2.books, b2.id = id) ∧
    (∀ b2 ∈ (deleteBook s id).2.books, b2.id ≠ id) := by
  have hfind : (s.books.find? (fun x => x.id == id)).isSome := by
    rw [List.find?_isSome]
    exact ⟨b, hb, by simp [hid]⟩
  obtain ⟨b0, hb0⟩ := Option.isSome_iff_exists.mp hfind
  have hs1 : (softDeleteBook s now id).2.books =
      s.books.map (fun x => if x.id == id then { x with deletedAt := some now } else x) := by
    simp only [softDeleteBook, hb0]
  have hnoactive : ∀ y ∈ (softDeleteBook s now id).2.books,
      ¬(y.id == id && y.deletedAt == none) = true := by
    rw [hs1]
    intro y hy
    rcases List.mem_map.mp hy with ⟨x, hx, hxy⟩
    by_cases hxid : (x.id == id) = true
    · rw [← hxy]
      simp [hxid]
    · rw [← hxy]
      simp [hxid]
  refine ⟨?_, ?_, ?_, ?_⟩
  · simp only [findBook]
    rw [if_neg (by simp), List.find?_eq_none.mpr hnoactive]
  · intro fail page perPage f so c r x h hx
    intro hxid
    rw [(findAllBooks_ok_inv h).1] at hx
    rcases List.mem_map.mp hx with ⟨y, hy, hxy⟩
    have hmem := (mem_pageOf hy).1
    have hw := (mem_pageOf hy).2
    have hdel : y.deletedAt = none := by
      simp only [whereMatches, Bool.and_eq_true] at hw
      simpa using hw.1
    rw [hs1] at hmem
    rcases List.mem_map.mp hmem with ⟨z, hz, hzy⟩
    by_cases hzid : (z.id == id) = true
    · rw [← hzy] at hdel
      simp [hzid] at hdel
    · cases hxy
      rw [← hzy] at hxid
      simp [hzid] at hxid
      have hzeq : z.id = id := hxid
      exact absurd (by simp [hzeq]) hzid
  · refine ⟨{ b with deletedAt := some now }, ?_, hid⟩
    rw [hs1]
    have hfb : { b with deletedAt := some now } =
        (fun x => if x.id == id then { x with deletedAt := some now } else x) b := by
      simp [hid]
    rw [hfb]
    exact List.mem_map_of_mem _ hb
  · intro b2 hb2 hb2id
    have hs2 : (deleteBook s id).2.books = s.books.filter (fun x => !(x.id == id)) := by
      simp only [deleteBook, hb0]
    rw [hs2] at hb2
    have hkeep := (List.mem_filter.mp hb2).2
    simp [hb2id] at hkeep

/-- C9 witness: soft-deleting the sample row `a` makes `findBook` report
`NotFound` for it. -/
theorem soft_vs_hard_delete_spec_witness :
    bookA ∈ sampleStore.books ∧ bookA.id = "a" ∧
      findBook (softDeleteBook sampleStore 9 "a").2 false "a" =
        .error (.notFound "Book not found!") :=
  ⟨by decide, rfl, (soft_vs_hard_delete_spec sampleStore 9 "a" bookA (by decide) rfl).1⟩

/-- C10: when `createBook` receives an image and a referenced category does
not exist, the image was already written to the blob store before the
category checks ran: the call fails with `NotFound` and inserts no row, yet
the uploaded bytes persist in the blob store under the original file name —
the blob store is not rolled back. -/
theorem image_persists_on_failed_create (s : Store) (blob : BlobStore)
    (newId : String) (d : CreateBookDto) (fu : FileUpload) :
    (catById s d.categoryId = none →
        (createBook s blob noCreateFail newId d (some fu)).1 =
            .error (.notFound ("Main category with ID " ++ d.categoryId ++ " not found")) ∧
          readBlob (createBook s blob noCreateFail newId d (some fu)).2.2 fu.originalname =
            some fu.buffer ∧
          (createBook s blob noCreateFail newId d (some fu)).2.1 = s) ∧
    (∀ scid mc, catById s d.categoryId = some mc → d.subCategoryId = some scid →
        catById s scid = none →
        (createBook s blob noCreateFail newId d (some fu)).1 =
            .error (.notFound ("Sub category with ID " ++ scid ++ " not found")) ∧
          readBlob (createBook s blob noCreateFail newId d (some fu)).2.2 fu.originalname =
            some fu.buffer ∧
          (createBook s blob noCreateFail newId d (some fu)).2.1 = s) := by
  constructor
  · intro hmain
    refine ⟨?_, ?_, ?_⟩
    · simp [createBook, noCreateFail, hmain]
    · simp [createBook, noCreateFail, hmain, readBlob, writeBlob]
    · simp [createBook, noCreateFail, hmain]
  · intro scid mc hmc hsub hscid
    refine ⟨?_, ?_, ?_⟩
    · simp [createBook, noCreateFail, hmc, hsub, hscid]
    · simp [createBook, noCreateFail, hmc, hsub, hscid, readBlob, writeBlob]
    · simp [createBook, noCreateFail, hmc, hsub, hscid]

/-- C10 witness: an upload whose main category is missing fails with
`NotFound` while its bytes remain readable from the blob store. -/
theorem image_persists_on_failed_create_witness :
    catById sampleStore "c9" = none ∧
      readBlob
        (createBook sampleStore [] noCreateFail "n1" ⟨"T", "A", "c9", none⟩
          (some ⟨"img.png", [1, 2, 3]⟩)).2.2 "img.png" = some [1, 2, 3] :=
  ⟨rfl,
   ((image_persists_on_failed_create sampleStore [] "n1" ⟨"T", "A", "c9", none⟩
      ⟨"img.png", [1, 2, 3]⟩).1 rfl).2.1⟩
